import Mathlib

/-!
# swift-build C shims: `SWBCLibc/libc.c` and `SWBCSupport/POSIXShims.c`

A shallow embedding of the four exported C functions

* `swb_stdout`, `swb_stderr` (libc.c),
* `swb_pipe2`, `swb_dup3` (POSIXShims.c),

together with a model of the operating-system primitives they call
(`pipe`, `pipe2`, `dup2`, `dup3`, `fcntl`).  The shims are written once, over
an arbitrary implementation `OS σ` of those primitives and over the two
preprocessor symbols `_WIN32` and `__APPLE__` that select the code path; the
concrete descriptor-table model `posix` follows the POSIX / Linux manual pages.
-/

namespace SWB

/-! ## libc.c -/

/-- A `FILE *` value, as an address; `0` is the null pointer. -/
abbrev FilePtr := Nat

/-- The part of the process state that libc.c reads: the C library's global
stream objects `stdout` and `stderr`. -/
structure Process where
  stdout : FilePtr
  stderr : FilePtr
  deriving DecidableEq, Repr

/-- The C function `int swb_clibc_anchor(void) { return 0; }`. -/
def swb_clibc_anchor (p : Process) : Int × Process := (0, p)

/-- The C function `FILE * const swb_stdout() { return stdout; }`. -/
def swb_stdout (p : Process) : FilePtr × Process := (p.stdout, p)

/-- The C function `FILE * const swb_stderr() { return stderr; }`. -/
def swb_stderr (p : Process) : FilePtr × Process := (p.stderr, p)

/-! ## POSIXShims.c: the operating-system interface -/

/-- The two preprocessor symbols POSIXShims.c tests. -/
structure Target where
  /-- whether `_WIN32` is defined -/
  win32 : Bool
  /-- whether `__APPLE__` is defined -/
  apple : Bool
  deriving DecidableEq, Repr

/-- A target with neither symbol defined: the `pipe2` / `dup3` path. -/
def Target.linux : Target := ⟨false, false⟩
/-- A target with only `__APPLE__` defined: `pipe` / `dup2` followed by `fcntl`. -/
def Target.darwin : Target := ⟨false, true⟩
/-- A target with only `_WIN32` defined: `pipe` / `dup2` alone. -/
def Target.windows : Target := ⟨true, false⟩

/-- One descriptor operation issued to the operating system, with the
arguments it was called with (`pipe` and `pipe2` receive the caller's buffer). -/
inductive Call where
  | pipe
  | pipe2 (flags : Int)
  | dup2 (oldfd newfd : Int)
  | dup3 (oldfd newfd flags : Int)
  | fcntl (fd cmd arg : Int)
  | close (fd : Int)
  deriving DecidableEq, Repr

/-- Outcome of a call that fills a two-slot descriptor buffer. -/
structure PipeResult (σ : Type) where
  /-- the `int` the call returned -/
  ret : Int
  /-- contents of the caller's `int pipefd[2]` after the call -/
  pipefd : Int × Int
  /-- state after the call -/
  st : σ
  deriving DecidableEq, Repr

/-- Outcome of a call that returns an `int`. -/
structure IntResult (σ : Type) where
  /-- the `int` the call returned -/
  ret : Int
  /-- state after the call -/
  st : σ
  deriving DecidableEq, Repr

/-- An implementation of the primitives declared by `<unistd.h>` and
`<fcntl.h>` that POSIXShims.c calls, as functions on an operating-system
state `σ`.  `pipe` and `pipe2` receive the current contents of the caller's
buffer and return its new contents. -/
structure OS (σ : Type) where
  pipe : σ → Int × Int → PipeResult σ
  pipe2 : σ → Int × Int → Int → PipeResult σ
  dup2 : σ → Int → Int → IntResult σ
  dup3 : σ → Int → Int → Int → IntResult σ
  fcntl : σ → Int → Int → Int → IntResult σ

/-- The operating-system state together with the log of the operations the
program has issued so far, oldest first. -/
structure World (σ : Type) where
  os : σ
  trace : List Call
  deriving DecidableEq, Repr

/-- The constant `F_SETFD` from `<fcntl.h>` (2 on Linux and on Darwin). -/
def F_SETFD : Int := 2
/-- The constant `FD_CLOEXEC` from `<fcntl.h>` (1 on Linux and on Darwin). -/
def FD_CLOEXEC : Int := 1

variable {σ : Type}

/-- A call `pipe(pipefd)`: run the primitive and log it. -/
def sys_pipe (K : OS σ) (pipefd : Int × Int) (w : World σ) : PipeResult (World σ) :=
  let r := K.pipe w.os pipefd
  ⟨r.ret, r.pipefd, ⟨r.st, w.trace ++ [Call.pipe]⟩⟩

/-- A call `pipe2(pipefd, flags)`: run the primitive and log it. -/
def sys_pipe2 (K : OS σ) (pipefd : Int × Int) (flags : Int) (w : World σ) :
    PipeResult (World σ) :=
  let r := K.pipe2 w.os pipefd flags
  ⟨r.ret, r.pipefd, ⟨r.st, w.trace ++ [Call.pipe2 flags]⟩⟩

/-- A call `dup2(oldfd, newfd)`: run the primitive and log it. -/
def sys_dup2 (K : OS σ) (oldfd newfd : Int) (w : World σ) : IntResult (World σ) :=
  let r := K.dup2 w.os oldfd newfd
  ⟨r.ret, ⟨r.st, w.trace ++ [Call.dup2 oldfd newfd]⟩⟩

/-- A call `dup3(oldfd, newfd, flags)`: run the primitive and log it. -/
def sys_dup3 (K : OS σ) (oldfd newfd flags : Int) (w : World σ) : IntResult (World σ) :=
  let r := K.dup3 w.os oldfd newfd flags
  ⟨r.ret, ⟨r.st, w.trace ++ [Call.dup3 oldfd newfd flags]⟩⟩

/-- A call `fcntl(fd, cmd, arg)`: run the primitive and log it. -/
def sys_fcntl (K : OS σ) (fd cmd arg : Int) (w : World σ) : IntResult (World σ) :=
  let r := K.fcntl w.os fd cmd arg
  ⟨r.ret, ⟨r.st, w.trace ++ [Call.fcntl fd cmd arg]⟩⟩

/-! ## POSIXShims.c: the two shims -/

/-- The C function
```
int swb_pipe2(int pipefd[2], int flags) {
#if defined(_WIN32) || defined(__APPLE__)
    int ret = pipe(pipefd);
#ifndef _WIN32
    if (ret != -1) {
        fcntl(pipefd[0], F_SETFD, FD_CLOEXEC);
        fcntl(pipefd[1], F_SETFD, FD_CLOEXEC);
    }
#endif
    return ret;
#else
    return pipe2(pipefd, flags);
#endif
}
```
The values the two `fcntl` calls return are discarded, as in the source. -/
def swb_pipe2 (K : OS σ) (t : Target) (pipefd : Int × Int) (flags : Int) (w : World σ) :
    PipeResult (World σ) :=
  if t.win32 || t.apple then
    let r := sys_pipe K pipefd w
    if !t.win32 then
      if r.ret ≠ -1 then
        let w1 := (sys_fcntl K r.pipefd.1 F_SETFD FD_CLOEXEC r.st).st
        let w2 := (sys_fcntl K r.pipefd.2 F_SETFD FD_CLOEXEC w1).st
        ⟨r.ret, r.pipefd, w2⟩
      else r
    else r
  else
    sys_pipe2 K pipefd flags w

/-- The C function
```
int swb_dup3(int oldfd, int newfd, int flags) {
#if defined(_WIN32) || defined(__APPLE__)
    int ret = dup2(oldfd, newfd);
#ifndef _WIN32
    if (ret != -1) {
        fcntl(newfd, F_SETFD, FD_CLOEXEC);
    }
#endif
    return ret;
#else
    return dup3(oldfd, newfd, flags);
#endif
}
```
The value the `fcntl` call returns is discarded, as in the source. -/
def swb_dup3 (K : OS σ) (t : Target) (oldfd newfd flags : Int) (w : World σ) :
    IntResult (World σ) :=
  if t.win32 || t.apple then
    let r := sys_dup2 K oldfd newfd w
    if !t.win32 then
      if r.ret ≠ -1 then
        let w1 := (sys_fcntl K newfd F_SETFD FD_CLOEXEC r.st).st
        ⟨r.ret, w1⟩
      else r
    else r
  else
    sys_dup3 K oldfd newfd flags w

/-! ## A descriptor-table model of the operating system

The primitives live in the C library and the kernel, outside the repository.
The model below follows their manual pages (POSIX `pipe`, `dup2`, `fcntl`;
Linux `pipe2(2)`, `dup3(2)`), restricted to what the shims can observe: which
descriptors are open, which open file each refers to, each descriptor's
close-on-exec flag, and `errno`. -/

/-- An open file description. The two ends of pipe number `n` are distinct
open files; `other n` stands for any open file that is not a pipe end. -/
inductive OpenFile where
  | pipeRead (n : Nat)
  | pipeWrite (n : Nat)
  | other (n : Nat)
  deriving DecidableEq, Repr

/-- One open descriptor: the open file it refers to and its `FD_CLOEXEC` flag. -/
structure Entry where
  file : OpenFile
  cloexec : Bool
  deriving DecidableEq, Repr

/-- The per-process descriptor state. Slot `i` of `fdtable` is descriptor `i`
(`none` when closed); the length of `fdtable` is the descriptor limit
(`RLIMIT_NOFILE`). `nextPipe` numbers the pipes created so far and `errno` is
the C library's last-error variable. -/
structure Kernel where
  fdtable : List (Option Entry)
  nextPipe : Nat
  errno : Int
  deriving DecidableEq, Repr

/-- The constant `EBADF` from `<errno.h>`. -/
def EBADF : Int := 9
/-- The constant `EINVAL` from `<errno.h>`. -/
def EINVAL : Int := 22
/-- The constant `EMFILE` from `<errno.h>`. -/
def EMFILE : Int := 24
/-- The constant `EPERM` from `<errno.h>`. -/
def EPERM : Int := 1

/-- The constant `O_CLOEXEC` of Linux `<fcntl.h>` (octal 02000000). -/
def O_CLOEXEC : Nat := 524288
/-- The constant `O_NONBLOCK` of Linux `<fcntl.h>` (octal 04000). -/
def O_NONBLOCK : Nat := 2048
/-- The constant `O_DIRECT` of Linux `<fcntl.h>` (octal 040000). -/
def O_DIRECT : Nat := 16384
/-- The constant `O_NOTIFICATION_PIPE` of Linux `<fcntl.h>` (the value of `O_EXCL`, octal 0200). -/
def O_NOTIFICATION_PIPE : Nat := 128

/-- The 32-bit pattern of a C `int`, as a natural number below `2 ^ 32`. -/
def bits (x : Int) : Nat := (x % 4294967296).toNat

/-- C's `(x & mask) != 0`. -/
def hasBit (x : Int) (mask : Nat) : Bool := decide (bits x &&& mask ≠ 0)

/-- C's `(x & ~allowed) != 0`: some bit of `x` lies outside `allowed`. -/
def hasBitOutside (x : Int) (allowed : Nat) : Bool :=
  decide (bits x &&& (4294967295 - allowed) ≠ 0)

/-- The descriptor `fd` is a non-negative number below the descriptor limit. -/
def Kernel.inRange (k : Kernel) (fd : Int) : Bool :=
  decide (0 ≤ fd ∧ fd.toNat < k.fdtable.length)

/-- What descriptor `fd` refers to: `none` when it is negative, out of range
or closed. -/
def Kernel.lookup (k : Kernel) (fd : Int) : Option Entry :=
  if fd < 0 then none else k.fdtable.getD fd.toNat none

/-- Replace slot `n` of the descriptor table. -/
def Kernel.setfd (k : Kernel) (n : Nat) (e : Option Entry) : Kernel :=
  { k with fdtable := k.fdtable.set n e }

/-- Record an error number. -/
def Kernel.fail (k : Kernel) (e : Int) : Kernel := { k with errno := e }

/-- The closed descriptors of a table, in increasing order. -/
def freeSlots (tbl : List (Option Entry)) : List Nat :=
  (List.range tbl.length).filter (fun i => tbl.getD i none == none)

/-- Creation of a pipe whose two descriptors get close-on-exec flag `cloexec`:
the two lowest-numbered closed descriptors are opened on the read end and the
write end of a new pipe and stored in the buffer; with fewer than two closed
descriptors the call fails with `EMFILE` and leaves table and buffer alone. -/
def Kernel.allocPipe (k : Kernel) (cloexec : Bool) (pipefd : Int × Int) : PipeResult Kernel :=
  match freeSlots k.fdtable with
  | a :: b :: _ =>
    let k1 := k.setfd a (some ⟨OpenFile.pipeRead k.nextPipe, cloexec⟩)
    let k2 := k1.setfd b (some ⟨OpenFile.pipeWrite k.nextPipe, cloexec⟩)
    ⟨0, ((a : Int), (b : Int)), { k2 with nextPipe := k.nextPipe + 1 }⟩
  | _ => ⟨-1, pipefd, k.fail EMFILE⟩

/-- The call `pipe(pipefd)`: both new descriptors have `FD_CLOEXEC` clear. -/
def posix_pipe (k : Kernel) (pipefd : Int × Int) : PipeResult Kernel :=
  k.allocPipe false pipefd

/-- The call `pipe2(pipefd, flags)` of Linux: `EINVAL` when `flags` has a bit
other than `O_CLOEXEC`, `O_DIRECT`, `O_NONBLOCK`, `O_NOTIFICATION_PIPE`;
otherwise as `pipe`, with `FD_CLOEXEC` set on both descriptors exactly when
`O_CLOEXEC` is in `flags`. (The other three flags act on the open file, which
the model does not track.) -/
def posix_pipe2 (k : Kernel) (pipefd : Int × Int) (flags : Int) : PipeResult Kernel :=
  if hasBitOutside flags (O_CLOEXEC + O_NONBLOCK + O_DIRECT + O_NOTIFICATION_PIPE) then
    ⟨-1, pipefd, k.fail EINVAL⟩
  else
    k.allocPipe (hasBit flags O_CLOEXEC) pipefd

/-- The call `dup2(oldfd, newfd)`: `EBADF` when `oldfd` is not open or `newfd`
is out of range (and then `newfd` is not closed); when `oldfd = newfd` is open
nothing is done and `newfd` is returned; otherwise `newfd` is silently closed
and made to refer to the open file of `oldfd`, with `FD_CLOEXEC` clear. -/
def posix_dup2 (k : Kernel) (oldfd newfd : Int) : IntResult Kernel :=
  match k.lookup oldfd with
  | none => ⟨-1, k.fail EBADF⟩
  | some e =>
    if !k.inRange newfd then ⟨-1, k.fail EBADF⟩
    else if oldfd = newfd then ⟨newfd, k⟩
    else ⟨newfd, k.setfd newfd.toNat (some ⟨e.file, false⟩)⟩

/-- The call `dup3(oldfd, newfd, flags)` of Linux: `EINVAL` when `flags` has a
bit other than `O_CLOEXEC` or when `oldfd = newfd`; `EBADF` as for `dup2`;
otherwise as `dup2`, with `FD_CLOEXEC` set on `newfd` exactly when `O_CLOEXEC`
is in `flags`. -/
def posix_dup3 (k : Kernel) (oldfd newfd flags : Int) : IntResult Kernel :=
  if hasBitOutside flags O_CLOEXEC then ⟨-1, k.fail EINVAL⟩
  else if oldfd = newfd then ⟨-1, k.fail EINVAL⟩
  else if !k.inRange newfd then ⟨-1, k.fail EBADF⟩
  else
    match k.lookup oldfd with
    | none => ⟨-1, k.fail EBADF⟩
    | some e => ⟨newfd, k.setfd newfd.toNat (some ⟨e.file, hasBit flags O_CLOEXEC⟩)⟩

/-- The call `fcntl(fd, cmd, arg)`. Only `F_SETFD`, the one command the shims
issue, is modelled: `EBADF` when `fd` is not open, otherwise the descriptor's
`FD_CLOEXEC` flag becomes bit `FD_CLOEXEC` of `arg` and 0 is returned. Any
other command is answered with `EINVAL` and changes no descriptor. -/
def posix_fcntl (k : Kernel) (fd cmd arg : Int) : IntResult Kernel :=
  if cmd = F_SETFD then
    match k.lookup fd with
    | none => ⟨-1, k.fail EBADF⟩
    | some e => ⟨0, k.setfd fd.toNat (some ⟨e.file, hasBit arg FD_CLOEXEC.toNat⟩)⟩
  else ⟨-1, k.fail EINVAL⟩

/-- The operating system of the manual pages. -/
def posix : OS Kernel where
  pipe := posix_pipe
  pipe2 := posix_pipe2
  dup2 := posix_dup2
  dup3 := posix_dup3
  fcntl := posix_fcntl

/-- An operating system on which every `fcntl` is refused (as under a system
call filter): it returns -1, sets `errno` and changes no descriptor. The other
primitives are those of `posix`. -/
def posixFcntlRefused : OS Kernel where
  pipe := posix_pipe
  pipe2 := posix_pipe2
  dup2 := posix_dup2
  dup3 := posix_dup3
  fcntl := fun k _ _ _ => ⟨-1, k.fail EPERM⟩

/-- A process with descriptors 0, 1, 2 open on three files, all inherited
(`FD_CLOEXEC` clear), and a descriptor limit of 8. -/
def k0 : Kernel :=
  { fdtable := [some ⟨OpenFile.other 0, false⟩, some ⟨OpenFile.other 1, false⟩,
                some ⟨OpenFile.other 2, false⟩, none, none, none, none, none],
    nextPipe := 0, errno := 0 }

/-- A process whose descriptor table is full: limit 3, descriptors 0, 1, 2 open. -/
def kFull : Kernel :=
  { fdtable := [some ⟨OpenFile.other 0, false⟩, some ⟨OpenFile.other 1, false⟩,
                some ⟨OpenFile.other 2, true⟩],
    nextPipe := 0, errno := 0 }

/-- Start of a run: no operation issued yet. -/
def World.init (k : σ) : World σ := ⟨k, []⟩

/-! ## Facts about the descriptor-table model -/

theorem Kernel.lookup_neg (k : Kernel) (fd : Int) (h : fd < 0) : k.lookup fd = none := by
  simp [Kernel.lookup, h]

theorem Kernel.lookup_setfd (k : Kernel) (n : Nat) (e : Option Entry) (fd : Int) :
    (k.setfd n e).lookup fd
      = if 0 ≤ fd ∧ fd.toNat = n ∧ n < k.fdtable.length then e else k.lookup fd := by
  unfold Kernel.lookup Kernel.setfd
  by_cases hneg : fd < 0
  · have : ¬ (0 ≤ fd) := by omega
    simp [hneg, this]
  · have h0 : 0 ≤ fd := by omega
    simp only [hneg, if_false, h0, true_and, List.getD_eq_getElem?_getD, List.getElem?_set]
    by_cases hn : n = fd.toNat
    · subst hn
      by_cases hl : fd.toNat < k.fdtable.length
      · simp [hl]
      · simp [hl]
        have : k.fdtable[fd.toNat]? = none := by
          apply List.getElem?_eq_none; omega
        simp [this]
    · have : ¬ (fd.toNat = n) := fun h => hn h.symm
      simp [hn, this]

theorem Kernel.lookup_some_inRange (k : Kernel) (fd : Int) (e : Entry)
    (h : k.lookup fd = some e) : 0 ≤ fd ∧ fd.toNat < k.fdtable.length := by
  unfold Kernel.lookup at h
  by_cases hneg : fd < 0
  · simp [hneg] at h
  · refine ⟨by omega, ?_⟩
    simp only [hneg, if_false, List.getD_eq_getElem?_getD] at h
    by_contra hl
    have : k.fdtable[fd.toNat]? = none := by
      apply List.getElem?_eq_none; omega
    simp [this] at h

theorem freeSlots_mem (tbl : List (Option Entry)) (a : Nat) (h : a ∈ freeSlots tbl) :
    a < tbl.length ∧ tbl.getD a none = none := by
  unfold freeSlots at h
  rw [List.mem_filter, List.mem_range] at h
  exact ⟨h.1, by simpa using h.2⟩

theorem freeSlots_nodup (tbl : List (Option Entry)) : (freeSlots tbl).Nodup :=
  (List.nodup_range _).filter _

theorem Kernel.allocPipe_fail (k : Kernel) (c : Bool) (buf : Int × Int)
    (h : (k.allocPipe c buf).ret ≠ 0) :
    (k.allocPipe c buf).ret = -1 ∧ (k.allocPipe c buf).pipefd = buf
      ∧ (k.allocPipe c buf).st = k.fail EMFILE := by
  unfold Kernel.allocPipe at h ⊢
  rcases hfs : freeSlots k.fdtable with _ | ⟨a, _ | ⟨b, rest⟩⟩
  · simp
  · simp
  · rw [hfs] at h
    simp at h

theorem Kernel.allocPipe_succeeds (k : Kernel) (c : Bool) (buf : Int × Int)
    (h : 2 ≤ (freeSlots k.fdtable).length) : (k.allocPipe c buf).ret = 0 := by
  unfold Kernel.allocPipe
  rcases hfs : freeSlots k.fdtable with _ | ⟨a, _ | ⟨b, rest⟩⟩
  · rw [hfs] at h; simp at h
  · rw [hfs] at h; simp at h
  · simp

theorem Kernel.allocPipe_ok (k : Kernel) (c : Bool) (buf : Int × Int)
    (h : (k.allocPipe c buf).ret = 0) :
    ∃ a b : Nat, a ≠ b ∧ (k.allocPipe c buf).pipefd = ((a : Int), (b : Int))
      ∧ k.lookup a = none ∧ k.lookup b = none
      ∧ (k.allocPipe c buf).st.lookup a = some ⟨OpenFile.pipeRead k.nextPipe, c⟩
      ∧ (k.allocPipe c buf).st.lookup b = some ⟨OpenFile.pipeWrite k.nextPipe, c⟩
      ∧ ∀ fd : Int, fd ≠ a → fd ≠ b → (k.allocPipe c buf).st.lookup fd = k.lookup fd := by
  unfold Kernel.allocPipe at h ⊢
  rcases hfs : freeSlots k.fdtable with _ | ⟨a, _ | ⟨b, rest⟩⟩
  · rw [hfs] at h; simp at h
  · rw [hfs] at h; simp at h
  · have ha := freeSlots_mem k.fdtable a (by rw [hfs]; simp)
    have hb := freeSlots_mem k.fdtable b (by rw [hfs]; simp)
    have hnd := freeSlots_nodup k.fdtable
    rw [hfs] at hnd
    have hab : a ≠ b := by
      intro hEq
      rw [hEq] at hnd
      simp at hnd
    have hla : k.lookup a = none := by
      have hn : ¬ ((a : Int) < 0) := by omega
      simp only [Kernel.lookup, hn, if_false, Int.toNat_ofNat]
      exact ha.2
    have hlb : k.lookup b = none := by
      have hn : ¬ ((b : Int) < 0) := by omega
      simp only [Kernel.lookup, hn, if_false, Int.toNat_ofNat]
      exact hb.2
    refine ⟨a, b, hab, rfl, hla, hlb, ?_, ?_, ?_⟩
    · show Kernel.lookup ((k.setfd a _).setfd b _) a = _
      rw [Kernel.lookup_setfd, Kernel.lookup_setfd]
      simp [hab, ha.1]
    · show Kernel.lookup ((k.setfd a _).setfd b _) b = _
      rw [Kernel.lookup_setfd]
      simp [Kernel.setfd, hb.1]
    · intro fd hfa hfb
      show Kernel.lookup ((k.setfd a _).setfd b _) fd = _
      rw [Kernel.lookup_setfd, Kernel.lookup_setfd]
      have h1 : ¬ (0 ≤ fd ∧ fd.toNat = b ∧ b < (k.setfd a (some ⟨OpenFile.pipeRead k.nextPipe, c⟩)).fdtable.length) := by
        rintro ⟨h0, h1, _⟩
        apply hfb; omega
      have h2 : ¬ (0 ≤ fd ∧ fd.toNat = a ∧ a < k.fdtable.length) := by
        rintro ⟨h0, h1, _⟩
        apply hfa; omega
      simp only [h1, h2, if_false]

theorem Kernel.lookup_fail (k : Kernel) (e : Int) (fd : Int) :
    (k.fail e).lookup fd = k.lookup fd := rfl

theorem posix_fcntl_setfd_open (k : Kernel) (fd : Int) (e : Entry)
    (h : k.lookup fd = some e) :
    posix_fcntl k fd F_SETFD FD_CLOEXEC = ⟨0, k.setfd fd.toNat (some ⟨e.file, true⟩)⟩ := by
  have hb : hasBit FD_CLOEXEC FD_CLOEXEC.toNat = true := by decide
  simp [posix_fcntl, h, hb]

theorem posix_fcntl_setfd_lookup (k : Kernel) (fd : Int) (e : Entry)
    (h : k.lookup fd = some e) (x : Int) :
    (posix_fcntl k fd F_SETFD FD_CLOEXEC).st.lookup x
      = if x = fd then some ⟨e.file, true⟩ else k.lookup x := by
  rw [posix_fcntl_setfd_open k fd e h]
  have hr := k.lookup_some_inRange fd e h
  show (k.setfd fd.toNat _).lookup x = _
  rw [Kernel.lookup_setfd]
  by_cases hx : x = fd
  · subst hx
    simp [hr.1, hr.2]
  · have : ¬ (0 ≤ x ∧ x.toNat = fd.toNat ∧ fd.toNat < k.fdtable.length) := by
      rintro ⟨h0, h1, _⟩
      apply hx
      have := hr.1
      omega
    simp only [this, hx, if_false]

theorem posix_fcntl_fdtable_length (k : Kernel) (fd cmd arg : Int) :
    (posix_fcntl k fd cmd arg).st.fdtable.length = k.fdtable.length := by
  unfold posix_fcntl
  split
  · split <;> simp [Kernel.fail, Kernel.setfd]
  · simp [Kernel.fail]

/-- No `fcntl` of the model closes a descriptor. -/
theorem posix_fcntl_keeps_open (k : Kernel) (fd cmd arg x : Int)
    (h : (k.lookup x).isSome = true) : ((posix_fcntl k fd cmd arg).st.lookup x).isSome = true := by
  unfold posix_fcntl
  split
  · split
    · simpa [Kernel.lookup_fail] using h
    · rename_i e he
      show ((k.setfd fd.toNat _).lookup x).isSome = true
      rw [Kernel.lookup_setfd]
      split
      · rfl
      · exact h
  · simpa [Kernel.lookup_fail] using h

theorem Kernel.inRange_iff (k : Kernel) (fd : Int) :
    k.inRange fd = true ↔ 0 ≤ fd ∧ fd.toNat < k.fdtable.length := by
  simp [Kernel.inRange]

theorem Kernel.lookup_some_inRange_true (k : Kernel) (fd : Int) (e : Entry)
    (h : k.lookup fd = some e) : k.inRange fd = true :=
  (k.inRange_iff fd).2 (k.lookup_some_inRange fd e h)

theorem Kernel.lookup_setfd_self (k : Kernel) (fd : Int) (e : Option Entry)
    (h : k.inRange fd = true) : (k.setfd fd.toNat e).lookup fd = e := by
  rw [Kernel.lookup_setfd]
  have := (k.inRange_iff fd).1 h
  simp [this.1, this.2]

theorem Kernel.lookup_setfd_other (k : Kernel) (fd x : Int) (e : Option Entry)
    (h0 : 0 ≤ fd) (hx : x ≠ fd) : (k.setfd fd.toNat e).lookup x = k.lookup x := by
  rw [Kernel.lookup_setfd]
  have : ¬ (0 ≤ x ∧ x.toNat = fd.toNat ∧ fd.toNat < k.fdtable.length) := by
    rintro ⟨h1, h2, _⟩
    apply hx; omega
  simp only [this, if_false]

theorem posix_dup2_ok (k : Kernel) (oldfd newfd : Int) (e : Entry)
    (h : k.lookup oldfd = some e) (hr : k.inRange newfd = true) (hne : oldfd ≠ newfd) :
    posix_dup2 k oldfd newfd = ⟨newfd, k.setfd newfd.toNat (some ⟨e.file, false⟩)⟩ := by
  simp [posix_dup2, h, hr, hne]

theorem posix_dup2_same (k : Kernel) (fd : Int) (e : Entry) (h : k.lookup fd = some e) :
    posix_dup2 k fd fd = ⟨fd, k⟩ := by
  simp [posix_dup2, h, k.lookup_some_inRange_true fd e h]

theorem posix_dup2_bad (k : Kernel) (oldfd newfd : Int)
    (h : k.lookup oldfd = none ∨ k.inRange newfd = false) :
    posix_dup2 k oldfd newfd = ⟨-1, k.fail EBADF⟩ := by
  unfold posix_dup2
  rcases h with h | h
  · simp [h]
  · cases hl : k.lookup oldfd <;> simp [h]

theorem posix_dup3_ok (k : Kernel) (oldfd newfd flags : Int) (e : Entry)
    (hf : hasBitOutside flags O_CLOEXEC = false)
    (h : k.lookup oldfd = some e) (hr : k.inRange newfd = true) (hne : oldfd ≠ newfd) :
    posix_dup3 k oldfd newfd flags
      = ⟨newfd, k.setfd newfd.toNat (some ⟨e.file, hasBit flags O_CLOEXEC⟩)⟩ := by
  simp [posix_dup3, hf, h, hr, hne]

theorem posix_dup3_bad (k : Kernel) (oldfd newfd flags : Int)
    (h : hasBitOutside flags O_CLOEXEC = true ∨ oldfd = newfd ∨ k.lookup oldfd = none
      ∨ k.inRange newfd = false) :
    (posix_dup3 k oldfd newfd flags).ret = -1
      ∧ (posix_dup3 k oldfd newfd flags).st.fdtable = k.fdtable := by
  unfold posix_dup3
  by_cases h1 : hasBitOutside flags O_CLOEXEC = true
  · simp [h1, Kernel.fail]
  · by_cases h2 : oldfd = newfd
    · simp [h1, h2, Kernel.fail]
    · by_cases h3 : k.inRange newfd = true
      · rcases h with h | h | h | h
        · exact absurd h h1
        · exact absurd h h2
        · simp [h1, h2, h3, h, Kernel.fail]
        · rw [h] at h3; exact absurd h3 (by decide)
      · simp [h1, h2, h3, Kernel.fail]

/-! ## The stream accessors -/

/-- C9: in every process state `swb_stdout` returns the process's `stdout`
handle and `swb_stderr` its `stderr` handle; the call leaves the process state
as it was, a second call returns the same handle as the first, and the handle
returned is null exactly when the process's own handle is. -/
theorem swb_stream_accessors (p : Process) :
    (swb_stdout p).1 = p.stdout ∧ (swb_stderr p).1 = p.stderr
      ∧ (swb_stdout p).2 = p ∧ (swb_stderr p).2 = p
      ∧ (swb_stdout (swb_stdout p).2).1 = (swb_stdout p).1
      ∧ (swb_stderr (swb_stderr p).2).1 = (swb_stderr p).1
      ∧ (swb_stdout (swb_stderr p).2).1 = (swb_stdout p).1
      ∧ (swb_stderr (swb_stdout p).2).1 = (swb_stderr p).1
      ∧ ((swb_stdout p).1 = 0 ↔ p.stdout = 0)
      ∧ ((swb_stderr p).1 = 0 ↔ p.stderr = 0) :=
  ⟨rfl, rfl, rfl, rfl, rfl, rfl, rfl, rfl, Iff.rfl, Iff.rfl⟩

/-! ## Properties of the shims over every operating system -/

/-- C3: on a fallback target (`_WIN32` or `__APPLE__` defined), when the
underlying `pipe` returns -1, `swb_pipe2` returns that -1, the only operation
it has issued is the `pipe` call (no `fcntl`), and the operating-system state
and the two buffer slots are those `pipe` left. -/
theorem swb_pipe2_pipe_failure (K : OS σ) (t : Target) (pipefd : Int × Int) (flags : Int)
    (w : World σ) (hfb : (t.win32 || t.apple) = true)
    (hfail : (K.pipe w.os pipefd).ret = -1) :
    (swb_pipe2 K t pipefd flags w).ret = -1
      ∧ (swb_pipe2 K t pipefd flags w).ret = (K.pipe w.os pipefd).ret
      ∧ (swb_pipe2 K t pipefd flags w).st.trace = w.trace ++ [Call.pipe]
      ∧ (swb_pipe2 K t pipefd flags w).st.os = (K.pipe w.os pipefd).st
      ∧ (swb_pipe2 K t pipefd flags w).pipefd = (K.pipe w.os pipefd).pipefd := by
  unfold swb_pipe2
  rw [if_pos hfb]
  cases hw : t.win32 <;> simp [sys_pipe, hfail]

/-- Witness for `swb_pipe2_pipe_failure`: the Apple path on a full descriptor
table, where `pipe` fails with `EMFILE`. -/
theorem swb_pipe2_pipe_failure_witness :
    (posix.pipe kFull (7, 9)).ret = -1
      ∧ (swb_pipe2 posix Target.darwin (7, 9) 0 (World.init kFull)).ret = -1
      ∧ (swb_pipe2 posix Target.darwin (7, 9) 0 (World.init kFull)).st.trace = [Call.pipe]
      ∧ (swb_pipe2 posix Target.darwin (7, 9) 0 (World.init kFull)).st.os.fdtable = kFull.fdtable
      ∧ (swb_pipe2 posix Target.darwin (7, 9) 0 (World.init kFull)).pipefd = (7, 9) := by
  have h := swb_pipe2_pipe_failure posix Target.darwin (7, 9) 0 (World.init kFull)
    (by decide) (by decide)
  refine ⟨by decide, h.1, ?_, ?_, ?_⟩
  · rw [h.2.2.1]; rfl
  · rw [h.2.2.2.1]; rfl
  · rw [h.2.2.2.2]; rfl

/-- C4: on a fallback target the flag application is best effort. When `pipe`
(resp. `dup2`) does not return -1, `swb_pipe2` (resp. `swb_dup3`) returns the
value `pipe` (resp. `dup2`) returned and hands back the buffer `pipe` filled,
whatever the `fcntl` of the operating system does or returns; the operations
issued are the `pipe` (resp. `dup2`) call followed by `fcntl` calls only, no
`close` among them; and every descriptor that was open after `pipe` (resp.
`dup2`) is still open on return, for any notion `isOpen` of openness that the
operating system's `fcntl` preserves. -/
theorem fallback_flag_application_best_effort (K : OS σ) (isOpen : σ → Int → Prop)
    (hkeep : ∀ s fd cmd arg x, isOpen s x → isOpen (K.fcntl s fd cmd arg).st x)
    (t : Target) (hfb : (t.win32 || t.apple) = true)
    (pipefd : Int × Int) (oldfd newfd flags : Int) (w : World σ) :
    ((K.pipe w.os pipefd).ret ≠ -1 →
        (swb_pipe2 K t pipefd flags w).ret = (K.pipe w.os pipefd).ret
        ∧ (swb_pipe2 K t pipefd flags w).pipefd = (K.pipe w.os pipefd).pipefd
        ∧ (∃ issued, (swb_pipe2 K t pipefd flags w).st.trace = w.trace ++ Call.pipe :: issued
            ∧ (∀ c ∈ issued, ∃ fd cmd arg, c = Call.fcntl fd cmd arg)
            ∧ ∀ fd, Call.close fd ∉ Call.pipe :: issued)
        ∧ ∀ x, isOpen (K.pipe w.os pipefd).st x → isOpen (swb_pipe2 K t pipefd flags w).st.os x)
    ∧ ((K.dup2 w.os oldfd newfd).ret ≠ -1 →
        (swb_dup3 K t oldfd newfd flags w).ret = (K.dup2 w.os oldfd newfd).ret
        ∧ (∃ issued, (swb_dup3 K t oldfd newfd flags w).st.trace
              = w.trace ++ Call.dup2 oldfd newfd :: issued
            ∧ (∀ c ∈ issued, ∃ fd cmd arg, c = Call.fcntl fd cmd arg)
            ∧ ∀ fd, Call.close fd ∉ Call.dup2 oldfd newfd :: issued)
        ∧ ∀ x, isOpen (K.dup2 w.os oldfd newfd).st x
            → isOpen (swb_dup3 K t oldfd newfd flags w).st.os x) := by
  constructor
  · intro hok
    unfold swb_pipe2
    rw [if_pos hfb]
    cases hw : t.win32
    · simp only [Bool.not_false, if_true, sys_pipe, hok, ne_eq, not_false_eq_true, sys_fcntl]
      refine ⟨trivial, trivial, ⟨[Call.fcntl (K.pipe w.os pipefd).pipefd.1 F_SETFD FD_CLOEXEC,
        Call.fcntl (K.pipe w.os pipefd).pipefd.2 F_SETFD FD_CLOEXEC], by simp, ?_, ?_⟩, ?_⟩
      · intro c hc
        simp only [List.mem_cons, List.mem_singleton, List.mem_nil_iff, or_false] at hc
        rcases hc with rfl | rfl
        · exact ⟨_, _, _, rfl⟩
        · exact ⟨_, _, _, rfl⟩
      · intro fd hmem
        simp at hmem
      · intro x hx
        exact hkeep _ _ _ _ _ (hkeep _ _ _ _ _ hx)
    · simp only [Bool.not_true, sys_pipe]
      refine ⟨rfl, rfl, ⟨[], by simp, by simp, by simp⟩, fun x hx => hx⟩
  · intro hok
    unfold swb_dup3
    rw [if_pos hfb]
    cases hw : t.win32
    · simp only [Bool.not_false, if_true, sys_dup2, hok, ne_eq, not_false_eq_true, sys_fcntl]
      refine ⟨trivial, ⟨[Call.fcntl newfd F_SETFD FD_CLOEXEC], by simp, ?_, ?_⟩, ?_⟩
      · intro c hc
        simp only [List.mem_singleton] at hc
        exact ⟨_, _, _, hc⟩
      · intro fd hmem
        simp at hmem
      · intro x hx
        exact hkeep _ _ _ _ _ hx
    · simp only [Bool.not_true, sys_dup2]
      refine ⟨rfl, ⟨[], by simp, by simp, by simp⟩, fun x hx => hx⟩

/-- Witness for `fallback_flag_application_best_effort`: the Apple path on an
operating system whose `fcntl` always fails. `pipe` opens descriptors 3 and 4
and `dup2(1, 5)` opens descriptor 5; the shims return 0 and 5 and the
descriptors stay open although every flag application failed. -/
theorem fallback_flag_application_best_effort_witness :
    (posixFcntlRefused.pipe k0 (0, 0)).ret ≠ -1
      ∧ (posixFcntlRefused.dup2 k0 1 5).ret ≠ -1
      ∧ (posixFcntlRefused.fcntl (posixFcntlRefused.pipe k0 (0, 0)).st 3 F_SETFD FD_CLOEXEC).ret = -1
      ∧ (swb_pipe2 posixFcntlRefused Target.darwin (0, 0) 0 (World.init k0)).ret = 0
      ∧ (swb_pipe2 posixFcntlRefused Target.darwin (0, 0) 0 (World.init k0)).pipefd = (3, 4)
      ∧ ((swb_pipe2 posixFcntlRefused Target.darwin (0, 0) 0 (World.init k0)).st.os.lookup 3).isSome
          = true
      ∧ ((swb_pipe2 posixFcntlRefused Target.darwin (0, 0) 0 (World.init k0)).st.os.lookup 4).isSome
          = true
      ∧ (swb_dup3 posixFcntlRefused Target.darwin 1 5 0 (World.init k0)).ret = 5
      ∧ ((swb_dup3 posixFcntlRefused Target.darwin 1 5 0 (World.init k0)).st.os.lookup 5).isSome
          = true := by
  have h := fallback_flag_application_best_effort posixFcntlRefused
    (fun k x => (k.lookup x).isSome = true) (fun _ _ _ _ _ hx => hx)
    Target.darwin (by decide) (0, 0) 1 5 0 (World.init k0)
  have hp := h.1 (by decide)
  have hd := h.2 (by decide)
  refine ⟨by decide, by decide, by decide, ?_, ?_, ?_, ?_, ?_, ?_⟩
  · rw [hp.1]; decide
  · rw [hp.2.1]; decide
  · exact hp.2.2.2 3 (by decide)
  · exact hp.2.2.2 4 (by decide)
  · rw [hd.1]; decide
  · exact hd.2.2 5 (by decide)

/-- C5: on a target with neither `_WIN32` nor `__APPLE__` defined the shims
are plain delegations. `swb_pipe2(pipefd, flags)` issues the single operation
`pipe2(pipefd, flags)` and returns its value, its buffer contents and its final
state; `swb_dup3(oldfd, newfd, flags)` issues the single operation
`dup3(oldfd, newfd, flags)` and returns its value and its final state. -/
theorem native_shims_delegate (K : OS σ) (t : Target) (hw : t.win32 = false)
    (ha : t.apple = false) (pipefd : Int × Int) (oldfd newfd flags : Int) (w : World σ) :
    (swb_pipe2 K t pipefd flags w).ret = (K.pipe2 w.os pipefd flags).ret
      ∧ (swb_pipe2 K t pipefd flags w).pipefd = (K.pipe2 w.os pipefd flags).pipefd
      ∧ (swb_pipe2 K t pipefd flags w).st.os = (K.pipe2 w.os pipefd flags).st
      ∧ (swb_pipe2 K t pipefd flags w).st.trace = w.trace ++ [Call.pipe2 flags]
      ∧ (swb_dup3 K t oldfd newfd flags w).ret = (K.dup3 w.os oldfd newfd flags).ret
      ∧ (swb_dup3 K t oldfd newfd flags w).st.os = (K.dup3 w.os oldfd newfd flags).st
      ∧ (swb_dup3 K t oldfd newfd flags w).st.trace
          = w.trace ++ [Call.dup3 oldfd newfd flags] := by
  simp [swb_pipe2, swb_dup3, hw, ha, sys_pipe2, sys_dup3]

/-- Witness for `native_shims_delegate`: the target `Target.linux` with
`flags = O_CLOEXEC`. -/
theorem native_shims_delegate_witness :
    Target.linux.win32 = false ∧ Target.linux.apple = false
      ∧ (swb_pipe2 posix Target.linux (0, 0) 524288 (World.init k0)).ret
          = (posix_pipe2 k0 (0, 0) 524288).ret
      ∧ (swb_pipe2 posix Target.linux (0, 0) 524288 (World.init k0)).st.trace
          = [Call.pipe2 524288]
      ∧ (swb_dup3 posix Target.linux 1 5 524288 (World.init k0)).st.os
          = (posix_dup3 k0 1 5 524288).st
      ∧ (swb_dup3 posix Target.linux 1 5 524288 (World.init k0)).st.trace
          = [Call.dup3 1 5 524288] := by
  have h := native_shims_delegate posix Target.linux rfl rfl (0, 0) 1 5 524288 (World.init k0)
  exact ⟨rfl, rfl, h.1, h.2.2.2.1, h.2.2.2.2.2.1, h.2.2.2.2.2.2⟩

/-- C10: on a fallback target (`_WIN32` or `__APPLE__` defined) the `flags`
argument is not read. For any two values `f1`, `f2` the runs of `swb_pipe2`
(and of `swb_dup3`) agree on return value, buffer, final state and the
sequence of operations issued. With `_WIN32` undefined that sequence is, once
`pipe` (resp. `dup2`) has not returned -1, the `pipe` call followed by
`fcntl(pipefd[0], F_SETFD, FD_CLOEXEC)` and `fcntl(pipefd[1], F_SETFD,
FD_CLOEXEC)` (resp. the `dup2` call followed by `fcntl(newfd, F_SETFD,
FD_CLOEXEC)`); with `_WIN32` defined it is the `pipe` (resp. `dup2`) call
alone. -/
theorem fallback_ignores_flags (K : OS σ) (t : Target) (hfb : (t.win32 || t.apple) = true)
    (pipefd : Int × Int) (oldfd newfd f1 f2 : Int) (w : World σ) :
    swb_pipe2 K t pipefd f1 w = swb_pipe2 K t pipefd f2 w
      ∧ swb_dup3 K t oldfd newfd f1 w = swb_dup3 K t oldfd newfd f2 w
      ∧ (t.win32 = false → (K.pipe w.os pipefd).ret ≠ -1 →
          (swb_pipe2 K t pipefd f1 w).st.trace
            = w.trace ++ [Call.pipe,
                Call.fcntl (K.pipe w.os pipefd).pipefd.1 F_SETFD FD_CLOEXEC,
                Call.fcntl (K.pipe w.os pipefd).pipefd.2 F_SETFD FD_CLOEXEC])
      ∧ (t.win32 = false → (K.dup2 w.os oldfd newfd).ret ≠ -1 →
          (swb_dup3 K t oldfd newfd f1 w).st.trace
            = w.trace ++ [Call.dup2 oldfd newfd, Call.fcntl newfd F_SETFD FD_CLOEXEC])
      ∧ (t.win32 = true →
          (swb_pipe2 K t pipefd f1 w).st.trace = w.trace ++ [Call.pipe]
          ∧ (swb_pipe2 K t pipefd f1 w).st.os = (K.pipe w.os pipefd).st
          ∧ (swb_dup3 K t oldfd newfd f1 w).st.trace = w.trace ++ [Call.dup2 oldfd newfd]
          ∧ (swb_dup3 K t oldfd newfd f1 w).st.os = (K.dup2 w.os oldfd newfd).st) := by
  refine ⟨?_, ?_, ?_, ?_, ?_⟩
  · unfold swb_pipe2
    rw [if_pos hfb, if_pos hfb]
  · unfold swb_dup3
    rw [if_pos hfb, if_pos hfb]
  · intro hw hok
    unfold swb_pipe2
    rw [if_pos hfb]
    simp [hw, sys_pipe, sys_fcntl, hok]
  · intro hw hok
    unfold swb_dup3
    rw [if_pos hfb]
    simp [hw, sys_dup2, sys_fcntl, hok]
  · intro hw
    unfold swb_pipe2 swb_dup3
    rw [if_pos hfb, if_pos hfb]
    simp [hw, sys_pipe, sys_dup2]

/-- Witness for `fallback_ignores_flags`: the Apple path with `flags = 0` and
`flags = O_CLOEXEC`. -/
theorem fallback_ignores_flags_witness :
    (Target.darwin.win32 || Target.darwin.apple) = true
      ∧ Target.darwin.win32 = false
      ∧ (posix.pipe k0 (0, 0)).ret ≠ -1
      ∧ (posix.dup2 k0 1 5).ret ≠ -1
      ∧ swb_pipe2 posix Target.darwin (0, 0) 0 (World.init k0)
          = swb_pipe2 posix Target.darwin (0, 0) 524288 (World.init k0)
      ∧ swb_dup3 posix Target.darwin 1 5 0 (World.init k0)
          = swb_dup3 posix Target.darwin 1 5 524288 (World.init k0)
      ∧ (swb_pipe2 posix Target.darwin (0, 0) 0 (World.init k0)).st.trace
          = [Call.pipe, Call.fcntl 3 2 1, Call.fcntl 4 2 1]
      ∧ (swb_dup3 posix Target.darwin 1 5 0 (World.init k0)).st.trace
          = [Call.dup2 1 5, Call.fcntl 5 2 1] := by
  have h := fallback_ignores_flags posix Target.darwin (by decide) (0, 0) 1 5 0 524288
    (World.init k0)
  refine ⟨by decide, rfl, by decide, by decide, h.1, h.2.1, ?_, ?_⟩
  · rw [h.2.2.1 rfl (by decide)]; decide
  · rw [h.2.2.2.1 rfl (by decide)]; decide

/-! ## Properties of the shims on the descriptor-table model -/

theorem hasBitOutside_zero (m : Nat) : hasBitOutside 0 m = false := by
  simp [hasBitOutside, bits]

theorem hasBit_zero (m : Nat) : hasBit 0 m = false := by
  simp [hasBit, bits]

/-- When `swb_pipe2` returns 0, both descriptors it stored carry the
close-on-exec flag of the path taken; with `flags = 0` and two free
descriptors it returns 0. -/
theorem swb_pipe2_cloexec_aux (t : Target) (pipefd : Int × Int) (flags : Int)
    (k : Kernel) (tr : List Call) :
    ((swb_pipe2 posix t pipefd flags ⟨k, tr⟩).ret = 0 →
        ((swb_pipe2 posix t pipefd flags ⟨k, tr⟩).st.os.lookup
            (swb_pipe2 posix t pipefd flags ⟨k, tr⟩).pipefd.1).map Entry.cloexec
          = some (if t.win32 then false else if t.apple then true else hasBit flags O_CLOEXEC)
        ∧ ((swb_pipe2 posix t pipefd flags ⟨k, tr⟩).st.os.lookup
            (swb_pipe2 posix t pipefd flags ⟨k, tr⟩).pipefd.2).map Entry.cloexec
          = some (if t.win32 then false else if t.apple then true else hasBit flags O_CLOEXEC))
    ∧ (2 ≤ (freeSlots k.fdtable).length → (swb_pipe2 posix t pipefd 0 ⟨k, tr⟩).ret = 0) := by
  rcases t with ⟨w32, ap⟩
  have hfree : 2 ≤ (freeSlots k.fdtable).length → ∀ c, (k.allocPipe c pipefd).ret = 0 :=
    fun h c => k.allocPipe_succeeds c pipefd h
  cases w32
  · cases ap
    · -- native path
      constructor
      · simp only [swb_pipe2, Bool.or_self, sys_pipe2, posix, posix_pipe2]
        by_cases hb : hasBitOutside flags (O_CLOEXEC + O_NONBLOCK + O_DIRECT + O_NOTIFICATION_PIPE) = true
        · simp [hb]
        · simp only [hb]
          intro h
          obtain ⟨a, b, _, hpf, _, _, hla, hlb, _⟩ := k.allocPipe_ok _ pipefd (by simpa using h)
          simp [hpf, hla, hlb]
      · intro h2
        simp [swb_pipe2, sys_pipe2, posix, posix_pipe2, hasBitOutside_zero, hfree h2]
    · -- Apple path
      constructor
      · simp only [swb_pipe2, Bool.or_true, Bool.false_or, sys_pipe, posix, posix_pipe,
          sys_fcntl, Bool.not_false, if_true]
        by_cases hr : (k.allocPipe false pipefd).ret = -1
        · simp [hr]
        · simp only [hr, ne_eq, not_false_eq_true, if_true]
          intro h
          obtain ⟨a, b, hab, hpf, _, _, hla, hlb, _⟩ := k.allocPipe_ok _ pipefd h
          have hab2 : (a : Int) ≠ (b : Int) := by exact_mod_cast hab
          have h1 := posix_fcntl_setfd_lookup _ a _ hla
          have hlb1 : (posix_fcntl (k.allocPipe false pipefd).st a F_SETFD FD_CLOEXEC).st.lookup b
              = some ⟨OpenFile.pipeWrite k.nextPipe, false⟩ := by
            rw [h1 b, if_neg hab2.symm, hlb]
          have h2 := posix_fcntl_setfd_lookup _ b _ hlb1
          rw [hpf]
          simp only [h2, if_neg hab2, h1, if_true]
          simp
      · intro h2
        have := hfree h2 false
        simp [swb_pipe2, sys_pipe, posix, posix_pipe, this]
  · -- Windows path
    constructor
    · simp only [swb_pipe2, Bool.true_or, sys_pipe, posix, posix_pipe, Bool.not_true, if_true]
      intro h
      obtain ⟨a, b, _, hpf, _, _, hla, hlb, _⟩ := k.allocPipe_ok _ pipefd (by simpa using h)
      simp [hpf, hla, hlb]
    · intro h2
      have := hfree h2 false
      simp [swb_pipe2, sys_pipe, posix, posix_pipe, this]

/-- C1 (as amended): when `swb_pipe2(pipefd, flags)` returns 0 the two
descriptors it stored are open and carry the same close-on-exec flag, which is
set exactly when `O_CLOEXEC` is in `flags` on the native path, set whatever
`flags` is on the Apple path, and clear whatever `flags` is on the Windows
path. With `flags = 0` the call returns 0 as soon as two descriptors are free,
and on the native and Windows paths both descriptors are then inherited (not
close-on-exec). -/
theorem swb_pipe2_cloexec_by_path (t : Target) (pipefd : Int × Int) (flags : Int)
    (k : Kernel) (tr : List Call) :
    ((swb_pipe2 posix t pipefd flags ⟨k, tr⟩).ret = 0 →
        ((swb_pipe2 posix t pipefd flags ⟨k, tr⟩).st.os.lookup
            (swb_pipe2 posix t pipefd flags ⟨k, tr⟩).pipefd.1).map Entry.cloexec
          = some (if t.win32 then false else if t.apple then true else hasBit flags O_CLOEXEC)
        ∧ ((swb_pipe2 posix t pipefd flags ⟨k, tr⟩).st.os.lookup
            (swb_pipe2 posix t pipefd flags ⟨k, tr⟩).pipefd.2).map Entry.cloexec
          = some (if t.win32 then false else if t.apple then true else hasBit flags O_CLOEXEC))
    ∧ (2 ≤ (freeSlots k.fdtable).length →
        (swb_pipe2 posix t pipefd 0 ⟨k, tr⟩).ret = 0
        ∧ ((t.win32 = true ∨ t.apple = false) →
            ((swb_pipe2 posix t pipefd 0 ⟨k, tr⟩).st.os.lookup
                (swb_pipe2 posix t pipefd 0 ⟨k, tr⟩).pipefd.1).map Entry.cloexec = some false
            ∧ ((swb_pipe2 posix t pipefd 0 ⟨k, tr⟩).st.os.lookup
                (swb_pipe2 posix t pipefd 0 ⟨k, tr⟩).pipefd.2).map Entry.cloexec = some false)) := by
  refine ⟨(swb_pipe2_cloexec_aux t pipefd flags k tr).1, fun h2 => ?_⟩
  have hz := swb_pipe2_cloexec_aux t pipefd 0 k tr
  refine ⟨hz.2 h2, fun hpath => ?_⟩
  have hc := hz.1 (hz.2 h2)
  have hE : (if t.win32 then false else if t.apple then true else hasBit 0 O_CLOEXEC) = false := by
    rcases hpath with h | h
    · simp [h]
    · simp [h, hasBit_zero]
  rw [hE] at hc
  exact hc

/-- Witness for `swb_pipe2_cloexec_by_path`: `flags = 0` on a process with
five free descriptors, on the Apple path (both descriptors close-on-exec) and
on the native path (both inherited). -/
theorem swb_pipe2_cloexec_by_path_witness :
    (swb_pipe2 posix Target.darwin (0, 0) 0 ⟨k0, []⟩).ret = 0
      ∧ 2 ≤ (freeSlots k0.fdtable).length
      ∧ ((swb_pipe2 posix Target.darwin (0, 0) 0 ⟨k0, []⟩).st.os.lookup
            (swb_pipe2 posix Target.darwin (0, 0) 0 ⟨k0, []⟩).pipefd.1).map Entry.cloexec
          = some true
      ∧ ((swb_pipe2 posix Target.darwin (0, 0) 0 ⟨k0, []⟩).st.os.lookup
            (swb_pipe2 posix Target.darwin (0, 0) 0 ⟨k0, []⟩).pipefd.2).map Entry.cloexec
          = some true
      ∧ (swb_pipe2 posix Target.linux (0, 0) 0 ⟨k0, []⟩).ret = 0
      ∧ ((swb_pipe2 posix Target.linux (0, 0) 0 ⟨k0, []⟩).st.os.lookup
            (swb_pipe2 posix Target.linux (0, 0) 0 ⟨k0, []⟩).pipefd.1).map Entry.cloexec
          = some false :=
  ⟨((swb_pipe2_cloexec_by_path Target.darwin (0, 0) 0 k0 []).2 (by decide)).1, by decide,
    ((swb_pipe2_cloexec_by_path Target.darwin (0, 0) 0 k0 []).1 (by decide)).1,
    ((swb_pipe2_cloexec_by_path Target.darwin (0, 0) 0 k0 []).1 (by decide)).2,
    ((swb_pipe2_cloexec_by_path Target.linux (0, 0) 0 k0 []).2 (by decide)).1,
    (((swb_pipe2_cloexec_by_path Target.linux (0, 0) 0 k0 []).2 (by decide)).2
      (Or.inr rfl)).1⟩

/-- C1 fails as stated. On the Apple path, on a process with descriptors 0
to 2 open, `swb_pipe2(pipefd, 0)` returns 0 and stores descriptors 3 and 4,
and both are close-on-exec afterwards although `flags = 0` does not contain
`O_CLOEXEC`. -/
theorem swb_pipe2_apple_ignores_flags_zero :
    (swb_pipe2 posix Target.darwin (0, 0) 0 (World.init k0)).ret = 0
      ∧ (swb_pipe2 posix Target.darwin (0, 0) 0 (World.init k0)).pipefd = (3, 4)
      ∧ hasBit 0 O_CLOEXEC = false
      ∧ (swb_pipe2 posix Target.darwin (0, 0) 0 (World.init k0)).st.os.lookup 3
          = some ⟨OpenFile.pipeRead 0, true⟩
      ∧ (swb_pipe2 posix Target.darwin (0, 0) 0 (World.init k0)).st.os.lookup 4
          = some ⟨OpenFile.pipeWrite 0, true⟩ := by
  decide

/-- C2 (as amended): when `swb_dup3(oldfd, newfd, flags)` does not return -1,
`newfd` is open and its close-on-exec flag is set exactly when `O_CLOEXEC` is
in `flags` on the native path, set whatever `flags` is on the Apple path, and
on the Windows path clear whatever `flags` is when `oldfd ≠ newfd` (when
`oldfd = newfd` the Windows path changes nothing). -/
theorem swb_dup3_cloexec_by_path (t : Target) (oldfd newfd flags : Int)
    (k : Kernel) (tr : List Call)
    (hok : (swb_dup3 posix t oldfd newfd flags ⟨k, tr⟩).ret ≠ -1) :
    (t.win32 = false →
        ((swb_dup3 posix t oldfd newfd flags ⟨k, tr⟩).st.os.lookup newfd).map Entry.cloexec
          = some (if t.apple then true else hasBit flags O_CLOEXEC))
    ∧ (t.win32 = true → oldfd ≠ newfd →
        ((swb_dup3 posix t oldfd newfd flags ⟨k, tr⟩).st.os.lookup newfd).map Entry.cloexec
          = some false)
    ∧ (t.win32 = true → oldfd = newfd →
        (swb_dup3 posix t oldfd newfd flags ⟨k, tr⟩).st.os = k) := by
  rcases t with ⟨w32, ap⟩
  cases w32
  · refine ⟨fun _ => ?_, fun h => by simp at h, fun h => by simp at h⟩
    cases ap
    · -- native path
      simp only [swb_dup3, Bool.or_self, sys_dup3, posix] at hok ⊢
      by_cases hbad : hasBitOutside flags O_CLOEXEC = true ∨ oldfd = newfd
          ∨ k.lookup oldfd = none ∨ k.inRange newfd = false
      · exact absurd (posix_dup3_bad k oldfd newfd flags hbad).1 hok
      · simp only [not_or] at hbad
        obtain ⟨h1, h2, h3, h4⟩ := hbad
        obtain ⟨e, he⟩ := Option.ne_none_iff_exists'.1 h3
        have h4t : k.inRange newfd = true := by simpa using h4
        rw [posix_dup3_ok k oldfd newfd flags e (by simpa using h1) he h4t h2]
        simp [Kernel.lookup_setfd_self k newfd _ h4t]
    · -- Apple path
      simp only [swb_dup3, Bool.or_true, Bool.false_or, sys_dup2, posix, sys_fcntl,
        Bool.not_false, if_true] at hok ⊢
      by_cases hbad : k.lookup oldfd = none ∨ k.inRange newfd = false
      · rw [posix_dup2_bad k oldfd newfd hbad] at hok
        simp at hok
      · simp only [not_or] at hbad
        obtain ⟨h3, h4⟩ := hbad
        obtain ⟨e, he⟩ := Option.ne_none_iff_exists'.1 h3
        have h4t : k.inRange newfd = true := by simpa using h4
        have h0 : (0 : Int) ≤ newfd := ((k.inRange_iff newfd).1 h4t).1
        have hne1 : newfd ≠ -1 := by omega
        by_cases hsame : oldfd = newfd
        · subst hsame
          rw [posix_dup2_same k oldfd e he]
          simp only [ne_eq, hne1, not_false_eq_true, if_true]
          rw [posix_fcntl_setfd_lookup k oldfd e he]
          simp
        · rw [posix_dup2_ok k oldfd newfd e he h4t hsame]
          simp only [ne_eq, hne1, not_false_eq_true, if_true]
          rw [posix_fcntl_setfd_lookup _ newfd _ (Kernel.lookup_setfd_self k newfd _ h4t)]
          simp
  · -- Windows path
    refine ⟨fun h => by simp at h, fun _ hne => ?_, fun _ heq => ?_⟩
    · simp only [swb_dup3, Bool.true_or, sys_dup2, posix, Bool.not_true, if_true,
        Bool.false_eq_true, if_false] at hok ⊢
      by_cases hbad : k.lookup oldfd = none ∨ k.inRange newfd = false
      · rw [posix_dup2_bad k oldfd newfd hbad] at hok
        simp at hok
      · simp only [not_or] at hbad
        obtain ⟨h3, h4⟩ := hbad
        obtain ⟨e, he⟩ := Option.ne_none_iff_exists'.1 h3
        have h4t : k.inRange newfd = true := by simpa using h4
        rw [posix_dup2_ok k oldfd newfd e he h4t hne]
        simp [Kernel.lookup_setfd_self k newfd _ h4t]
    · simp only [swb_dup3, Bool.true_or, sys_dup2, posix, Bool.not_true, if_true,
        Bool.false_eq_true, if_false] at hok ⊢
      subst heq
      cases he : k.lookup oldfd with
      | none =>
        rw [posix_dup2_bad k oldfd oldfd (Or.inl he)] at hok
        simp at hok
      | some e => rw [posix_dup2_same k oldfd e he]

/-- Witness for `swb_dup3_cloexec_by_path`: `swb_dup3(1, 5, O_CLOEXEC)` on the
native path, and `swb_dup3(1, 5, 0)` on the Apple path. -/
theorem swb_dup3_cloexec_by_path_witness :
    (swb_dup3 posix Target.linux 1 5 524288 ⟨k0, []⟩).ret ≠ -1
      ∧ ((swb_dup3 posix Target.linux 1 5 524288 ⟨k0, []⟩).st.os.lookup 5).map Entry.cloexec
          = some true
      ∧ (swb_dup3 posix Target.darwin 1 5 0 ⟨k0, []⟩).ret ≠ -1
      ∧ ((swb_dup3 posix Target.darwin 1 5 0 ⟨k0, []⟩).st.os.lookup 5).map Entry.cloexec
          = some true :=
  ⟨by decide, (swb_dup3_cloexec_by_path Target.linux 1 5 524288 k0 [] (by decide)).1 rfl,
   by decide, (swb_dup3_cloexec_by_path Target.darwin 1 5 0 k0 [] (by decide)).1 rfl⟩

/-- C2 fails as stated. On the Apple path, with descriptor 1 open,
`swb_dup3(1, 5, 0)` returns 5 and descriptor 5 is close-on-exec afterwards
although `flags = 0` does not contain `O_CLOEXEC`. -/
theorem swb_dup3_apple_ignores_flags_zero :
    (swb_dup3 posix Target.darwin 1 5 0 (World.init k0)).ret = 5
      ∧ hasBit 0 O_CLOEXEC = false
      ∧ (swb_dup3 posix Target.darwin 1 5 0 (World.init k0)).st.os.lookup 5
          = some ⟨OpenFile.other 1, true⟩ := by
  decide

/-- C6 (as amended): when `oldfd` is open, `newfd` is a descriptor number
within the limit and different from `oldfd`, and either the target is a
fallback one or `flags` is 0 or `O_CLOEXEC`, then `swb_dup3(oldfd, newfd,
flags)` returns `newfd`; afterwards `newfd` refers to the open file of `oldfd`
(so no longer to a different file it referred to before), `oldfd` is as it
was, and every descriptor other than `newfd` is as it was. -/
theorem swb_dup3_duplicates (t : Target) (oldfd newfd flags : Int) (k : Kernel)
    (tr : List Call) (e : Entry)
    (hold : k.lookup oldfd = some e) (hnew : k.inRange newfd = true) (hne : oldfd ≠ newfd)
    (hflags : (t.win32 || t.apple) = true ∨ flags = 0 ∨ flags = (O_CLOEXEC : Int)) :
    (swb_dup3 posix t oldfd newfd flags ⟨k, tr⟩).ret = newfd
      ∧ ((swb_dup3 posix t oldfd newfd flags ⟨k, tr⟩).st.os.lookup newfd).map Entry.file
          = some e.file
      ∧ (∀ e0, k.lookup newfd = some e0 → e0.file ≠ e.file →
          ((swb_dup3 posix t oldfd newfd flags ⟨k, tr⟩).st.os.lookup newfd).map Entry.file
            ≠ some e0.file)
      ∧ (swb_dup3 posix t oldfd newfd flags ⟨k, tr⟩).st.os.lookup oldfd = some e
      ∧ ∀ x, x ≠ newfd →
          (swb_dup3 posix t oldfd newfd flags ⟨k, tr⟩).st.os.lookup x = k.lookup x := by
  have h0 : (0 : Int) ≤ newfd := ((k.inRange_iff newfd).1 hnew).1
  have hne1 : newfd ≠ -1 := by omega
  -- it is enough to know the return value, the file of `newfd` and the other descriptors
  suffices hmain : (swb_dup3 posix t oldfd newfd flags ⟨k, tr⟩).ret = newfd
      ∧ ((swb_dup3 posix t oldfd newfd flags ⟨k, tr⟩).st.os.lookup newfd).map Entry.file
          = some e.file
      ∧ ∀ x, x ≠ newfd →
          (swb_dup3 posix t oldfd newfd flags ⟨k, tr⟩).st.os.lookup x = k.lookup x by
    refine ⟨hmain.1, hmain.2.1, ?_, ?_, hmain.2.2⟩
    · intro e0 _ hdiff
      rw [hmain.2.1]
      intro hEq
      exact hdiff (Option.some.inj hEq).symm
    · rw [hmain.2.2 oldfd hne, hold]
  rcases t with ⟨w32, ap⟩
  cases w32
  · cases ap
    · -- native path
      have hf : hasBitOutside flags O_CLOEXEC = false := by
        rcases hflags with h | h | h
        · simp at h
        · rw [h]; exact hasBitOutside_zero _
        · rw [h]; decide
      simp only [swb_dup3, Bool.or_self, sys_dup3, posix, Bool.false_eq_true, if_false]
      rw [posix_dup3_ok k oldfd newfd flags e hf hold hnew hne]
      refine ⟨rfl, ?_, ?_⟩
      · simp [Kernel.lookup_setfd_self k newfd _ hnew]
      · intro x hx
        exact Kernel.lookup_setfd_other k newfd x _ h0 hx
    · -- Apple path
      simp only [swb_dup3, Bool.or_true, Bool.false_or, sys_dup2, posix, sys_fcntl,
        Bool.not_false, if_true]
      rw [posix_dup2_ok k oldfd newfd e hold hnew hne]
      simp only [ne_eq, hne1, not_false_eq_true, if_true]
      refine ⟨trivial, ?_, ?_⟩
      · rw [posix_fcntl_setfd_lookup _ newfd _ (Kernel.lookup_setfd_self k newfd _ hnew)]
        simp
      · intro x hx
        rw [posix_fcntl_setfd_lookup _ newfd _ (Kernel.lookup_setfd_self k newfd _ hnew),
          if_neg hx]
        exact Kernel.lookup_setfd_other k newfd x _ h0 hx
  · -- Windows path
    simp only [swb_dup3, Bool.true_or, sys_dup2, posix, Bool.not_true, if_true,
      Bool.false_eq_true, if_false]
    rw [posix_dup2_ok k oldfd newfd e hold hnew hne]
    refine ⟨rfl, ?_, ?_⟩
    · simp [Kernel.lookup_setfd_self k newfd _ hnew]
    · intro x hx
      exact Kernel.lookup_setfd_other k newfd x _ h0 hx

/-- Witness for `swb_dup3_duplicates`: `swb_dup3(1, 2, O_CLOEXEC)` on the
native path, where descriptor 2 was open on another file. -/
theorem swb_dup3_duplicates_witness :
    k0.lookup 1 = some ⟨OpenFile.other 1, false⟩ ∧ k0.inRange 2 = true ∧ (1 : Int) ≠ 2
      ∧ k0.lookup 2 = some ⟨OpenFile.other 2, false⟩
      ∧ (swb_dup3 posix Target.linux 1 2 (O_CLOEXEC : Int) ⟨k0, []⟩).ret = 2
      ∧ ((swb_dup3 posix Target.linux 1 2 (O_CLOEXEC : Int) ⟨k0, []⟩).st.os.lookup 2).map
          Entry.file = some (OpenFile.other 1)
      ∧ (swb_dup3 posix Target.linux 1 2 (O_CLOEXEC : Int) ⟨k0, []⟩).st.os.lookup 1
          = some ⟨OpenFile.other 1, false⟩
      ∧ (swb_dup3 posix Target.linux 1 2 (O_CLOEXEC : Int) ⟨k0, []⟩).st.os.lookup 0
          = k0.lookup 0 := by
  have h := swb_dup3_duplicates Target.linux 1 2 (O_CLOEXEC : Int) k0 []
    ⟨OpenFile.other 1, false⟩ (by decide) (by decide) (by decide) (Or.inr (Or.inr rfl))
  exact ⟨by decide, by decide, by decide, by decide, h.1, h.2.1, h.2.2.2.1,
    h.2.2.2.2 0 (by decide)⟩

/-- C6 fails as stated. On the native path, with descriptor 1 open and
descriptor 5 a free number within the limit, `swb_dup3(1, 5, 1)` returns -1
rather than 5 and descriptor 5 refers to nothing afterwards: `dup3` rejects a
`flags` value with a bit other than `O_CLOEXEC`. -/
theorem swb_dup3_native_rejects_flags :
    k0.lookup 1 = some ⟨OpenFile.other 1, false⟩ ∧ k0.inRange 5 = true ∧ (1 : Int) ≠ 5
      ∧ (swb_dup3 posix Target.linux 1 5 1 (World.init k0)).ret = -1
      ∧ (swb_dup3 posix Target.linux 1 5 1 (World.init k0)).ret ≠ 5
      ∧ (swb_dup3 posix Target.linux 1 5 1 (World.init k0)).st.os.lookup 5 = none := by
  decide

/-- C7 (as amended): for an open descriptor `fd`, `swb_dup3(fd, fd, flags)`
on the Windows path returns `fd` and changes nothing at all; on the Apple path
it returns `fd`, `fd` still refers to the same open file with its
close-on-exec flag now set, and every other descriptor is as it was; on the
native path it returns -1 and the descriptor table is as it was. -/
theorem swb_dup3_same_descriptor (t : Target) (fd flags : Int) (k : Kernel) (tr : List Call)
    (e : Entry) (hopen : k.lookup fd = some e) :
    (t.win32 = true →
        (swb_dup3 posix t fd fd flags ⟨k, tr⟩).ret = fd
        ∧ (swb_dup3 posix t fd fd flags ⟨k, tr⟩).st.os = k)
    ∧ (t.win32 = false → t.apple = true →
        (swb_dup3 posix t fd fd flags ⟨k, tr⟩).ret = fd
        ∧ (swb_dup3 posix t fd fd flags ⟨k, tr⟩).st.os.lookup fd = some ⟨e.file, true⟩
        ∧ ∀ x, x ≠ fd → (swb_dup3 posix t fd fd flags ⟨k, tr⟩).st.os.lookup x = k.lookup x)
    ∧ (t.win32 = false → t.apple = false →
        (swb_dup3 posix t fd fd flags ⟨k, tr⟩).ret = -1
        ∧ (swb_dup3 posix t fd fd flags ⟨k, tr⟩).st.os.fdtable = k.fdtable) := by
  have h0 : (0 : Int) ≤ fd := (k.lookup_some_inRange fd e hopen).1
  have hne1 : fd ≠ -1 := by omega
  refine ⟨fun hw => ?_, fun hw ha => ?_, fun hw ha => ?_⟩
  · simp only [swb_dup3, hw, Bool.true_or, sys_dup2, posix, Bool.not_true, if_true,
      Bool.false_eq_true, if_false]
    rw [posix_dup2_same k fd e hopen]
    exact ⟨rfl, rfl⟩
  · simp only [swb_dup3, hw, ha, Bool.or_true, sys_dup2, posix, sys_fcntl,
      Bool.not_false, if_true]
    rw [posix_dup2_same k fd e hopen]
    simp only [ne_eq, hne1, not_false_eq_true, if_true]
    refine ⟨trivial, ?_, ?_⟩
    · rw [posix_fcntl_setfd_lookup k fd e hopen]
      simp
    · intro x hx
      rw [posix_fcntl_setfd_lookup k fd e hopen, if_neg hx]
  · simp only [swb_dup3, hw, ha, Bool.or_self, sys_dup3, posix, Bool.false_eq_true, if_false]
    exact posix_dup3_bad k fd fd flags (Or.inr (Or.inl rfl))

/-- Witness for `swb_dup3_same_descriptor`: `swb_dup3(1, 1, 0)` on the three
paths, descriptor 1 being open and inherited. -/
theorem swb_dup3_same_descriptor_witness :
    k0.lookup 1 = some ⟨OpenFile.other 1, false⟩
      ∧ (swb_dup3 posix Target.windows 1 1 0 ⟨k0, []⟩).st.os = k0
      ∧ (swb_dup3 posix Target.darwin 1 1 0 ⟨k0, []⟩).st.os.lookup 1
          = some ⟨OpenFile.other 1, true⟩
      ∧ (swb_dup3 posix Target.linux 1 1 0 ⟨k0, []⟩).ret = -1 :=
  ⟨by decide,
   ((swb_dup3_same_descriptor Target.windows 1 0 k0 []
      ⟨OpenFile.other 1, false⟩ (by decide)).1 rfl).2,
   ((swb_dup3_same_descriptor Target.darwin 1 0 k0 []
      ⟨OpenFile.other 1, false⟩ (by decide)).2.1 rfl rfl).2.1,
   ((swb_dup3_same_descriptor Target.linux 1 0 k0 []
      ⟨OpenFile.other 1, false⟩ (by decide)).2.2 rfl rfl).1⟩

/-- C7 fails as stated. On the Apple path, with descriptor 1 open and
inherited, `swb_dup3(1, 1, 0)` returns 1 and leaves descriptor 1
close-on-exec: the descriptor's close-on-exec flag has changed. -/
theorem swb_dup3_same_descriptor_sets_cloexec :
    k0.lookup 1 = some ⟨OpenFile.other 1, false⟩
      ∧ (swb_dup3 posix Target.darwin 1 1 0 (World.init k0)).ret = 1
      ∧ (swb_dup3 posix Target.darwin 1 1 0 (World.init k0)).st.os.lookup 1
          = some ⟨OpenFile.other 1, true⟩
      ∧ (swb_dup3 posix Target.darwin 1 1 0 (World.init k0)).st.os.lookup 1 ≠ k0.lookup 1 := by
  decide

/-- C8: on every target, when `oldfd` is negative or not open, or `newfd` is
negative or beyond the descriptor limit, `swb_dup3(oldfd, newfd, flags)`
returns -1, the descriptor table is the one before the call, and the single
operation issued is the `dup2` (fallback) or `dup3` (native) call, so no
`fcntl` on `newfd`. And whenever `swb_pipe2` returns -1 the descriptor table
is the one before the call. -/
theorem shims_fail_without_side_effects (t : Target) (pipefd : Int × Int)
    (oldfd newfd flags : Int) (k : Kernel) (tr : List Call) :
    ((oldfd < 0 ∨ k.lookup oldfd = none ∨ newfd < 0 ∨ k.inRange newfd = false) →
        (swb_dup3 posix t oldfd newfd flags ⟨k, tr⟩).ret = -1
        ∧ (swb_dup3 posix t oldfd newfd flags ⟨k, tr⟩).st.os.fdtable = k.fdtable
        ∧ (swb_dup3 posix t oldfd newfd flags ⟨k, tr⟩).st.trace
            = tr ++ [if (t.win32 || t.apple) = true then Call.dup2 oldfd newfd
                     else Call.dup3 oldfd newfd flags])
    ∧ ((swb_pipe2 posix t pipefd flags ⟨k, tr⟩).ret = -1 →
        (swb_pipe2 posix t pipefd flags ⟨k, tr⟩).st.os.fdtable = k.fdtable) := by
  constructor
  · intro hbad
    have hbad2 : k.lookup oldfd = none ∨ k.inRange newfd = false := by
      rcases hbad with h | h | h | h
      · exact Or.inl (k.lookup_neg oldfd h)
      · exact Or.inl h
      · right
        cases hr : k.inRange newfd
        · rfl
        · have := ((k.inRange_iff newfd).1 hr).1
          omega
      · exact Or.inr h
    by_cases hfb : (t.win32 || t.apple) = true
    · unfold swb_dup3
      rw [if_pos hfb, if_pos hfb]
      simp only [sys_dup2, posix, posix_dup2_bad k oldfd newfd hbad2]
      cases t.win32 <;> simp [Kernel.fail]
    · unfold swb_dup3
      rw [if_neg hfb, if_neg hfb]
      have h3 := posix_dup3_bad k oldfd newfd flags (Or.inr (Or.inr hbad2))
      exact ⟨h3.1, h3.2, rfl⟩
  · intro hret
    by_cases hfb : (t.win32 || t.apple) = true
    · unfold swb_pipe2 at hret ⊢
      rw [if_pos hfb] at hret ⊢
      have hp : (k.allocPipe false pipefd).ret = -1 := by
        cases hw : t.win32
        · simp only [hw, Bool.not_false, if_true, sys_pipe, posix, posix_pipe] at hret
          split at hret
          · exact hret
          · exact hret
        · simpa [hw, sys_pipe, posix, posix_pipe] using hret
      have hf := k.allocPipe_fail false pipefd (by rw [hp]; decide)
      cases hw : t.win32
      · simp [sys_pipe, posix, posix_pipe, hp, hf.2.2, Kernel.fail]
      · simp [sys_pipe, posix, posix_pipe, hf.2.2, Kernel.fail]
    · unfold swb_pipe2 at hret ⊢
      rw [if_neg hfb] at hret ⊢
      simp only [sys_pipe2, posix, posix_pipe2] at hret ⊢
      split
      · rfl
      · rename_i hb
        simp only [hb] at hret
        have hf := k.allocPipe_fail (hasBit flags O_CLOEXEC) pipefd
          (by rw [show (k.allocPipe (hasBit flags O_CLOEXEC) pipefd).ret = -1 from by
                simpa using hret]; decide)
        rw [hf.2.2]
        rfl

/-- Witness for `shims_fail_without_side_effects`: `swb_dup3(6, 2, 0)` on the
Apple path with descriptor 6 closed and descriptor 2 open, and `swb_pipe2` on a
full descriptor table. -/
theorem shims_fail_without_side_effects_witness :
    k0.lookup 6 = none ∧ k0.lookup 2 = some ⟨OpenFile.other 2, false⟩
      ∧ (swb_dup3 posix Target.darwin 6 2 0 ⟨k0, []⟩).ret = -1
      ∧ (swb_dup3 posix Target.darwin 6 2 0 ⟨k0, []⟩).st.os.fdtable = k0.fdtable
      ∧ (swb_dup3 posix Target.darwin 6 2 0 ⟨k0, []⟩).st.trace = [Call.dup2 6 2]
      ∧ (swb_pipe2 posix Target.linux (0, 0) 0 ⟨kFull, []⟩).ret = -1
      ∧ (swb_pipe2 posix Target.linux (0, 0) 0 ⟨kFull, []⟩).st.os.fdtable = kFull.fdtable := by
  have hd := (shims_fail_without_side_effects Target.darwin (0, 0) 6 2 0 k0 []).1
    (Or.inr (Or.inl (by decide)))
  have hp := (shims_fail_without_side_effects Target.linux (0, 0) 6 2 0 kFull []).2
    (by decide)
  exact ⟨by decide, by decide, hd.1, hd.2.1, hd.2.2, by decide, hp⟩

end SWB
